import Mathlib

/-!
Shallow embedding of `src/provider/ecs/config.go` (traefik ECS provider,
label-resolution and configuration-derivation core), together with theorems
settling the spec's claims about it.

Modelling conventions:
* Go `map[string]*string` (DockerLabels) is an association list
  `List (String × Option String)`; map lookup `v, ok := m[k]` becomes
  `lookupLabel`, returning `Option (Option String)` (outer `Option` = `ok`,
  inner = the `*string` pointer, `none` = nil pointer).
* Go functions that can panic (out-of-bounds slice index, nil-pointer
  dereference) are embedded as `Option`-returning functions; `none` marks the
  panic path, `some r` a normal return `r`.
* Go `int` is the 64-bit platform integer; `int` and `int64` are both
  embedded as `Int`, with `strconv`'s 64-bit range checks made explicit in
  the parsers.
* `strings.ToLower` is embedded as `String.toLower` (ASCII case mapping,
  which agrees with Go on ASCII service names).
-/

namespace Ecs

/-- One discovered ECS instance, with the fields `config.go` reads:
`i.Name`, `i.containerDefinition.DockerLabels`, `i.machine.PrivateIpAddress`
(a `*string`), and `i.container.NetworkBindings` (each binding's `HostPort`
is a `*int64`). The nested structs are flattened to the accessed fields. -/
structure EcsInstance where
  Name : String
  DockerLabels : List (String × Option String)
  PrivateIpAddress : Option String
  NetworkBindings : List (Option Int)
deriving Repr, DecidableEq

/-- Go map lookup `v, ok := m[labelName]` on the label map. -/
def lookupLabel (m : List (String × Option String)) (k : String) :
    Option (Option String) :=
  (m.find? (fun p => p.1 == k)).map Prod.snd

/-- Label key constants, modelled from the spec and the `provider/label`
package (not under src/): opaque string keys used by `config.go`. -/
def TraefikPort : String := "traefik.port"

def TraefikFrontendRule : String := "traefik.frontend.rule"

def TraefikBackendMaxConnAmount : String := "traefik.backend.maxconn.amount"

def TraefikBackendMaxConnExtractorFunc : String :=
  "traefik.backend.maxconn.extractorfunc"

def TraefikBackendLoadBalancerStickiness : String :=
  "traefik.backend.loadbalancer.stickiness"

/-- `math.MaxInt64`. -/
def MaxInt64 : Int := 9223372036854775807

/-- One decimal digit, as `strconv` accepts for base 10. -/
def digitVal (c : Char) : Option Nat :=
  if '0' ≤ c ∧ c ≤ '9' then some (c.toNat - '0'.toNat) else none

/-- Accumulate base-10 digits; any non-digit character is a syntax error. -/
def parseDecDigitsAux (acc : Nat) : List Char → Option Nat
  | [] => some acc
  | c :: cs =>
    match digitVal c with
    | some d => parseDecDigitsAux (acc * 10 + d) cs
    | none => none

/-- A non-empty run of base-10 digits; empty input is a syntax error. -/
def parseDecDigits : List Char → Option Nat
  | [] => none
  | cs => parseDecDigitsAux 0 cs

/-- `strconv.ParseInt(s, 10, 64)`: optional sign, base-10 digits, 64-bit
range check. `none` is any non-nil error (syntax or range), in which case
the callers in `config.go` fall back to their default. -/
def goParseInt64 (s : String) : Option Int :=
  match s.data with
  | [] => none
  | c :: cs =>
    let neg := c = '-'
    let digits := if c = '-' ∨ c = '+' then cs else c :: cs
    match parseDecDigits digits with
    | none => none
    | some n =>
      if neg then
        if n ≤ 2 ^ 63 then some (-(n : Int)) else none
      else
        if n < 2 ^ 63 then some (n : Int) else none

/-- `strconv.Atoi(s)`: on a 64-bit platform this is `ParseInt(s, 10, 64)`
with the result as `int`. -/
def goAtoi (s : String) : Option Int := goParseInt64 s

/-- `strconv.ParseBool`: accepts exactly the Go token set. -/
def goParseBool (s : String) : Option Bool :=
  if s = "1" ∨ s = "t" ∨ s = "T" ∨ s = "TRUE" ∨ s = "true" ∨ s = "True" then
    some true
  else if s = "0" ∨ s = "f" ∨ s = "F" ∨ s = "FALSE" ∨ s = "false" ∨ s = "False" then
    some false
  else none

/-- Modelled from the spec: the helper `label.SplitAndTrimString` (package
`provider/label`, not under src/) splits the value on the separator and
trims surrounding whitespace from each element (spec section 4.1). -/
def SplitAndTrimString (s : String) (sep : String) : List String :=
  (s.splitOn sep).map String.trim

/-- `getStringValue` from `config.go`: label value verbatim, defaulting on
absent key, nil pointer, or empty string. -/
def getStringValue (i : EcsInstance) (labelName : String)
    (defaultValue : String) : String :=
  match lookupLabel i.DockerLabels labelName with
  | some v =>
    match v with
    | none => defaultValue
    | some s => if s.length = 0 then defaultValue else s
  | none => defaultValue

/-- `getBoolValue` from `config.go`: parse the label with
`strconv.ParseBool`, defaulting on absent key, nil pointer, or parse
error. -/
def getBoolValue (i : EcsInstance) (labelName : String)
    (defaultValue : Bool) : Bool :=
  match lookupLabel i.DockerLabels labelName with
  | some (some raw) =>
    match goParseBool raw with
    | some v => v
    | none => defaultValue
  | _ => defaultValue

/-- `getIntValue` from `config.go`: parse with `strconv.Atoi`, defaulting on
absent key, nil pointer, or parse error. -/
def getIntValue (i : EcsInstance) (labelName : String)
    (defaultValue : Int) : Int :=
  match lookupLabel i.DockerLabels labelName with
  | some (some raw) =>
    match goAtoi raw with
    | some v => v
    | none => defaultValue
  | _ => defaultValue

/-- `getInt64Value` from `config.go`: parse with
`strconv.ParseInt(_, 10, 64)`, defaulting on absent key, nil pointer, or
parse error. -/
def getInt64Value (i : EcsInstance) (labelName : String)
    (defaultValue : Int) : Int :=
  match lookupLabel i.DockerLabels labelName with
  | some (some raw) =>
    match goParseInt64 raw with
    | some v => v
    | none => defaultValue
  | _ => defaultValue

/-- `getSliceString` from `config.go`: Go's nil slice is `none`; a present,
non-nil, non-empty value is split and trimmed. -/
def getSliceString (i : EcsInstance) (labelName : String) :
    Option (List String) :=
  match lookupLabel i.DockerLabels labelName with
  | some (some v) => if v.length = 0 then none else some (SplitAndTrimString v ",")
  | some none => none
  | none => none

/-- `hasFirst` from `config.go`: the first instance carries the label with a
non-nil, non-empty value; `false` on an empty group. -/
def hasFirst (instances : List EcsInstance) (labelName : String) : Bool :=
  match instances with
  | [] => false
  | i :: _ =>
    match lookupLabel i.DockerLabels labelName with
    | some (some v) => v.length != 0
    | _ => false

/-- `getFirstStringValue` from `config.go`: explicit empty-group check,
then the typed accessor on `instances[0]`. -/
def getFirstStringValue (instances : List EcsInstance) (labelName : String)
    (defaultValue : String) : String :=
  match instances with
  | [] => defaultValue
  | i :: _ => getStringValue i labelName defaultValue

/-- `getFuncFirstIntValue` from `config.go` (the returned closure, applied).
The source guard is `len(instances) < 0`, embedded literally; when it does
not fire the code indexes `instances[0]`, which on an empty slice is a Go
runtime panic, embedded as `none`. -/
def getFuncFirstIntValue (labelName : String) (defaultValue : Int)
    (instances : List EcsInstance) : Option Int :=
  if instances.length < 0 then some defaultValue
  else
    match instances.head? with
    | some i => some (getIntValue i labelName defaultValue)
    | none => none

/-- `getFuncFirstInt64Value` from `config.go` (the returned closure,
applied), with the same literal `len(instances) < 0` guard and `none` for
the `instances[0]` panic on an empty slice. -/
def getFuncFirstInt64Value (labelName : String) (defaultValue : Int)
    (instances : List EcsInstance) : Option Int :=
  if instances.length < 0 then some defaultValue
  else
    match instances.head? with
    | some i => some (getInt64Value i labelName defaultValue)
    | none => none

/-- `getFuncFirstBoolValue` from `config.go` (the returned closure,
applied), with the same literal `len(instances) < 0` guard and `none` for
the `instances[0]` panic on an empty slice. -/
def getFuncFirstBoolValue (labelName : String) (defaultValue : Bool)
    (instances : List EcsInstance) : Option Bool :=
  if instances.length < 0 then some defaultValue
  else
    match instances.head? with
    | some i => some (getBoolValue i labelName defaultValue)
    | none => none

/-- `hasMaxConnLabels` from `config.go`. -/
def hasMaxConnLabels (instances : List EcsInstance) : Bool :=
  let mca := hasFirst instances TraefikBackendMaxConnAmount
  let mcef := hasFirst instances TraefikBackendMaxConnExtractorFunc
  mca && mcef

/-- The provider configuration read by `getFrontendRule`. -/
structure Provider where
  Domain : String

/-- `strings.Replace(s, "_", "-", -1)`: with a single-character pattern and
unbounded count this replaces every underscore character. -/
def replaceUnderscores (s : String) : String :=
  ⟨s.data.map fun c => if c = '_' then '-' else c⟩

/-- `strings.ToLower` (ASCII case mapping, agreeing with Go on ASCII). -/
def goToLower (s : String) : String :=
  ⟨s.data.map Char.toLower⟩

/-- `getFrontendRule` from `config.go`: default rule is
`"Host:" + ToLower(Replace(Name, "_", "-", -1)) + "." + Domain`, overridden
by a present, non-empty rule label. -/
def getFrontendRule (p : Provider) (i : EcsInstance) : String :=
  let defaultRule :=
    "Host:" ++ goToLower (replaceUnderscores i.Name) ++ "." ++ p.Domain
  getStringValue i TraefikFrontendRule defaultRule

/-- `getHost` from `config.go`: dereferences `i.machine.PrivateIpAddress`;
`none` is the nil-pointer panic. -/
def getHost (i : EcsInstance) : Option String := i.PrivateIpAddress

/-- `getPort` from `config.go`: a present, non-empty port label wins,
otherwise `strconv.FormatInt(*i.container.NetworkBindings[0].HostPort, 10)`;
`none` is the out-of-bounds/nil-pointer panic when there is no binding (or
its `HostPort` is nil). -/
def getPort (i : EcsInstance) : Option String :=
  let value := getStringValue i TraefikPort ""
  if value.length > 0 then some value
  else
    match i.NetworkBindings.head? with
    | some (some hp) => some (toString hp)
    | _ => none

/-- `getMaxConnAmount` as bound in `buildConfiguration`:
`getFuncFirstInt64Value(label.TraefikBackendMaxConnAmount, math.MaxInt64)`. -/
def getMaxConnAmount (instances : List EcsInstance) : Option Int :=
  getFuncFirstInt64Value TraefikBackendMaxConnAmount MaxInt64 instances

/-- `filterFrontends` from `config.go`: the `fun.Filter` scan with a `seen`
set of names, carried here as the accumulator `seen`. -/
def filterFrontendsAux (seen : List String) :
    List EcsInstance → List EcsInstance
  | [] => []
  | i :: rest =>
    if i.Name ∈ seen then filterFrontendsAux seen rest
    else i :: filterFrontendsAux (i.Name :: seen) rest

/-- `filterFrontends` from `config.go`: keep an instance iff its `Name` was
not seen earlier in the left-to-right scan. -/
def filterFrontends (instances : List EcsInstance) : List EcsInstance :=
  filterFrontendsAux [] instances

/-- The label is absent, present with a nil pointer, or present with the
empty string — the three cases the spec collapses to "absent" for
defaulting. -/
def labelAbsentNilOrEmpty (i : EcsInstance) (labelName : String) : Prop :=
  lookupLabel i.DockerLabels labelName = none ∨
  lookupLabel i.DockerLabels labelName = some none ∨
  lookupLabel i.DockerLabels labelName = some (some "")

instance (i : EcsInstance) (labelName : String) :
    Decidable (labelAbsentNilOrEmpty i labelName) := by
  unfold labelAbsentNilOrEmpty
  infer_instance

/-- Modelled from the spec: the assembler (template rendering through
`GetConfiguration`, not under src/) derives each service's fields
independently; a fatal host/port derivation failure is scoped to that one
service (spec sections 4.5 and 7). Here: port derivation mapped over a
batch of named services. -/
def derivePortsBatch (services : List (String × EcsInstance)) :
    List (String × Option String) :=
  services.map (fun s => (s.1, getPort s.2))

end Ecs

namespace Ecs

/-- C1: the group-level first-instance accessors on an empty group. The
string-typed one returns `defaultValue`, but the int/int64/bool ones guard
with `len(instances) < 0`, which never fires, and then index `instances[0]`
of the empty slice — a runtime panic (`none`), not `defaultValue`. -/
theorem empty_group_first_accessor_panics (labelName : String) (dS : String)
    (dB : Bool) (dI dI64 : Int) :
    getFuncFirstIntValue labelName dI [] = none ∧
    getFuncFirstInt64Value labelName dI64 [] = none ∧
    getFuncFirstBoolValue labelName dB [] = none ∧
    getFirstStringValue [] labelName dS = dS :=
  ⟨rfl, rfl, rfl, rfl⟩

/-- C2: every typed accessor returns its default when the key is absent,
present with a nil pointer, or present with the empty string; the
string-list accessor returns `none` (Go's nil slice), not an empty list. -/
theorem typed_default_on_absent_nil_empty (i : EcsInstance) (k : String)
    (dS : String) (dB : Bool) (dI dI64 : Int)
    (h : labelAbsentNilOrEmpty i k) :
    getStringValue i k dS = dS ∧
    getBoolValue i k dB = dB ∧
    getIntValue i k dI = dI ∧
    getInt64Value i k dI64 = dI64 ∧
    getSliceString i k = none := by
  rcases h with h | h | h <;>
    simp [getStringValue, getBoolValue, getIntValue, getInt64Value,
      getSliceString, h, goParseBool, goAtoi, goParseInt64, parseDecDigits]

/-- A concrete instance whose only label is present with the empty string. -/
def wInstEmptyLabel : EcsInstance :=
  { Name := "web", DockerLabels := [("traefik.port", some "")],
    PrivateIpAddress := none, NetworkBindings := [] }

/-- C2 witness: the empty-string label defaults for all five types. -/
theorem typed_default_on_absent_nil_empty_witness :
    getStringValue wInstEmptyLabel "traefik.port" "d" = "d" ∧
    getBoolValue wInstEmptyLabel "traefik.port" true = true ∧
    getIntValue wInstEmptyLabel "traefik.port" 7 = 7 ∧
    getInt64Value wInstEmptyLabel "traefik.port" 9 = 9 ∧
    getSliceString wInstEmptyLabel "traefik.port" = none :=
  typed_default_on_absent_nil_empty wInstEmptyLabel "traefik.port" "d" true 7 9
    (by decide)

/-- C3: a present, non-nil label value that fails to parse for the
requested type makes the typed accessor return its default; the accessor's
return type carries no error channel at all. -/
theorem typed_default_on_malformed (i : EcsInstance) (k : String) (v : String)
    (dB : Bool) (dI dI64 : Int)
    (h : lookupLabel i.DockerLabels k = some (some v)) :
    (goParseBool v = none → getBoolValue i k dB = dB) ∧
    (goAtoi v = none → getIntValue i k dI = dI) ∧
    (goParseInt64 v = none → getInt64Value i k dI64 = dI64) := by
  refine ⟨fun hb => ?_, fun hi => ?_, fun hi64 => ?_⟩
  · simp [getBoolValue, h, hb]
  · simp [getIntValue, h, hi]
  · simp [getInt64Value, h, hi64]

/-- A concrete instance carrying a malformed typed label value. -/
def wInstMalformed : EcsInstance :=
  { Name := "web", DockerLabels := [("traefik.backend.maxconn.amount", some "12x")],
    PrivateIpAddress := none, NetworkBindings := [] }

/-- C3 witness: the value `"12x"` is not a bool and not a base-10 integer,
and all three typed accessors return the supplied default on it. -/
theorem typed_default_on_malformed_witness :
    getBoolValue wInstMalformed "traefik.backend.maxconn.amount" true = true ∧
    getIntValue wInstMalformed "traefik.backend.maxconn.amount" 7 = 7 ∧
    getInt64Value wInstMalformed "traefik.backend.maxconn.amount" 9 = 9 := by
  have h := typed_default_on_malformed wInstMalformed
    "traefik.backend.maxconn.amount" "12x" true 7 9 (by decide)
  exact ⟨h.1 (by decide), h.2.1 (by decide), h.2.2 (by decide)⟩

end Ecs

namespace Ecs

/-- A concrete instance carrying no labels at all. -/
def instNoSticky : EcsInstance :=
  { Name := "web1", DockerLabels := [], PrivateIpAddress := none,
    NetworkBindings := [] }

/-- A concrete instance carrying the stickiness label set to `"true"`. -/
def instWithSticky : EcsInstance :=
  { Name := "web2",
    DockerLabels := [(TraefikBackendLoadBalancerStickiness, some "true")],
    PrivateIpAddress := none, NetworkBindings := [] }

/-- C4: on a non-empty group, every group-level accessor equals the typed
accessor applied to the first instance alone; in particular, a group whose
first instance lacks the stickiness label resolves stickiness to the
default `false` even though the second instance carries it. -/
theorem first_instance_only (i : EcsInstance) (rest : List EcsInstance)
    (k dS : String) (dB : Bool) (dI dI64 : Int) :
    getFirstStringValue (i :: rest) k dS = getStringValue i k dS ∧
    getFuncFirstBoolValue k dB (i :: rest) = some (getBoolValue i k dB) ∧
    getFuncFirstIntValue k dI (i :: rest) = some (getIntValue i k dI) ∧
    getFuncFirstInt64Value k dI64 (i :: rest) = some (getInt64Value i k dI64) ∧
    getFuncFirstBoolValue TraefikBackendLoadBalancerStickiness false
      [instNoSticky, instWithSticky] = some false := by
  refine ⟨rfl, ?_, ?_, ?_, ?_⟩
  · simp [getFuncFirstBoolValue]
  · simp [getFuncFirstIntValue]
  · simp [getFuncFirstInt64Value]
  · decide

/-- The instance of the spec's routing-rule example: service name
`My_Service`, no labels. -/
def instMyService : EcsInstance :=
  { Name := "My_Service", DockerLabels := [], PrivateIpAddress := none,
    NetworkBindings := [] }

/-- C5: with no explicit (non-empty) routing-rule label, `getFrontendRule`
synthesizes `"Host:" ++ lowercased, underscore-to-hyphen service name ++
"." ++ domain`; concretely, `My_Service` with domain `example.com` yields
`Host:my-service.example.com`. -/
theorem getFrontendRule_default_synthesis (p : Provider) (i : EcsInstance)
    (h : labelAbsentNilOrEmpty i TraefikFrontendRule) :
    getFrontendRule p i =
      "Host:" ++ goToLower (replaceUnderscores i.Name) ++ "." ++ p.Domain ∧
    getFrontendRule { Domain := "example.com" } instMyService =
      "Host:my-service.example.com" := by
  constructor
  · rcases h with h | h | h <;> simp [getFrontendRule, getStringValue, h]
  · decide

/-- C5 witness: the spec's example, obtained from the theorem at the
concrete provider and instance. -/
theorem getFrontendRule_default_synthesis_witness :
    getFrontendRule { Domain := "example.com" } instMyService =
      "Host:my-service.example.com" :=
  (getFrontendRule_default_synthesis { Domain := "example.com" } instMyService
    (Or.inl rfl)).2

/-- The label is present on the instance with a non-nil, non-empty value. -/
def labelPresentNonEmpty (i : EcsInstance) (k : String) : Prop :=
  ∃ v, lookupLabel i.DockerLabels k = some (some v) ∧ v ≠ ""

theorem length_eq_zero_iff (s : String) : s.length = 0 ↔ s = "" := by
  cases s with
  | mk data =>
    constructor
    · intro h
      rw [List.length_eq_zero.mp h]
    · intro h
      rw [h]
      rfl

theorem hasFirst_cons_iff (i : EcsInstance) (rest : List EcsInstance)
    (k : String) :
    hasFirst (i :: rest) k = true ↔ labelPresentNonEmpty i k := by
  cases hl : lookupLabel i.DockerLabels k with
  | none => simp [hasFirst, labelPresentNonEmpty, hl]
  | some v =>
    cases v with
    | none => simp [hasFirst, labelPresentNonEmpty, hl]
    | some s =>
      simp [hasFirst, labelPresentNonEmpty, hl, bne_iff_ne, ne_eq,
        length_eq_zero_iff]

/-- C9: `hasFirst` is `false` on an empty group, and on a non-empty group
holds iff the first instance's label map contains the key with a non-nil,
non-empty value — present-with-nil and present-with-empty count as absent,
mirroring the defaulting rule. -/
theorem hasFirst_presence (i : EcsInstance) (rest : List EcsInstance)
    (k : String) :
    hasFirst [] k = false ∧
    (hasFirst (i :: rest) k = true ↔
      ∃ v, lookupLabel i.DockerLabels k = some (some v) ∧ v ≠ "") :=
  ⟨rfl, hasFirst_cons_iff i rest k⟩

/-- C6: `hasMaxConnLabels` is `false` on the empty group; on a non-empty
group it holds iff **both** the max-connection-amount label and the
extractor-function label are present (non-nil, non-empty) on the first
instance; and it is `false` whenever exactly one of the two is present. -/
theorem hasMaxConnLabels_iff_both (i : EcsInstance) (rest : List EcsInstance) :
    hasMaxConnLabels [] = false ∧
    (hasMaxConnLabels (i :: rest) = true ↔
      labelPresentNonEmpty i TraefikBackendMaxConnAmount ∧
      labelPresentNonEmpty i TraefikBackendMaxConnExtractorFunc) ∧
    (¬ (labelPresentNonEmpty i TraefikBackendMaxConnAmount ↔
        labelPresentNonEmpty i TraefikBackendMaxConnExtractorFunc) →
      hasMaxConnLabels (i :: rest) = false) := by
  refine ⟨rfl, ?_, ?_⟩
  · rw [hasMaxConnLabels, Bool.and_eq_true]
    exact and_congr (hasFirst_cons_iff i rest _) (hasFirst_cons_iff i rest _)
  · intro hne
    cases ha : hasFirst (i :: rest) TraefikBackendMaxConnAmount with
    | false => simp [hasMaxConnLabels, ha]
    | true =>
      cases hb : hasFirst (i :: rest) TraefikBackendMaxConnExtractorFunc with
      | false => simp [hasMaxConnLabels, ha, hb]
      | true =>
        exact absurd (iff_of_true ((hasFirst_cons_iff i rest _).mp ha)
          ((hasFirst_cons_iff i rest _).mp hb)) hne

/-- A concrete instance carrying only the max-connection-amount label. -/
def instOnlyAmount : EcsInstance :=
  { Name := "web", DockerLabels := [(TraefikBackendMaxConnAmount, some "10")],
    PrivateIpAddress := none, NetworkBindings := [] }

/-- C6 witness: one label of the pair present, the other absent, and the
predicate is `false` on that group. -/
theorem hasMaxConnLabels_iff_both_witness :
    hasMaxConnLabels [instOnlyAmount] = false := by
  have hamt : labelPresentNonEmpty instOnlyAmount TraefikBackendMaxConnAmount :=
    ⟨"10", rfl, by decide⟩
  have hext : ¬ labelPresentNonEmpty instOnlyAmount TraefikBackendMaxConnExtractorFunc := by
    rintro ⟨v, hv, _⟩
    rw [show lookupLabel instOnlyAmount.DockerLabels
        TraefikBackendMaxConnExtractorFunc = none from by decide] at hv
    exact Option.noConfusion hv
  exact (hasMaxConnLabels_iff_both instOnlyAmount []).2.2
    (fun hiff => hext (hiff.mp hamt))

/-- C10: on a non-empty group whose first instance has the
max-connection-amount label absent, nil, or unparseable as a base-10
64-bit integer (the empty string included), `getMaxConnAmount` returns
`math.MaxInt64 = 2^63 - 1`. -/
theorem getMaxConnAmount_default (i : EcsInstance) (rest : List EcsInstance)
    (h : lookupLabel i.DockerLabels TraefikBackendMaxConnAmount = none ∨
      lookupLabel i.DockerLabels TraefikBackendMaxConnAmount = some none ∨
      ∃ v, lookupLabel i.DockerLabels TraefikBackendMaxConnAmount =
          some (some v) ∧ goParseInt64 v = none) :
    getMaxConnAmount (i :: rest) = some (2 ^ 63 - 1) := by
  have hval : getInt64Value i TraefikBackendMaxConnAmount MaxInt64 = MaxInt64 := by
    rcases h with h | h | ⟨v, hv, hp⟩
    · simp [getInt64Value, h]
    · simp [getInt64Value, h]
    · simp [getInt64Value, hv, hp]
  have : getMaxConnAmount (i :: rest) = some MaxInt64 := by
    simp [getMaxConnAmount, getFuncFirstInt64Value, hval]
  rw [this, MaxInt64]
  norm_num

/-- C10 witness: the unparseable value `"12x"` resolves the connection
limit to `2^63 - 1`. -/
theorem getMaxConnAmount_default_witness :
    getMaxConnAmount [wInstMalformed] = some (2 ^ 63 - 1) :=
  getMaxConnAmount_default wInstMalformed []
    (Or.inr (Or.inr ⟨"12x", rfl, by decide⟩))

end Ecs

namespace Ecs

theorem filterFrontendsAux_sublist (seen : List String)
    (l : List EcsInstance) :
    List.Sublist (filterFrontendsAux seen l) l := by
  induction l generalizing seen with
  | nil => exact List.Sublist.refl []
  | cons i rest ih =>
    rw [filterFrontendsAux]
    by_cases h : i.Name ∈ seen
    · rw [if_pos h]
      exact List.Sublist.cons i (ih seen)
    · rw [if_neg h]
      exact List.Sublist.cons₂ i (ih (i.Name :: seen))

theorem filterFrontendsAux_name_not_seen (seen : List String)
    (l : List EcsInstance) :
    ∀ j ∈ filterFrontendsAux seen l, j.Name ∉ seen := by
  induction l generalizing seen with
  | nil => intro j hj; exact absurd hj (List.not_mem_nil j)
  | cons i rest ih =>
    intro j hj
    rw [filterFrontendsAux] at hj
    by_cases h : i.Name ∈ seen
    · rw [if_pos h] at hj
      exact ih seen j hj
    · rw [if_neg h] at hj
      rcases List.mem_cons.mp hj with he | hj
    
      · rw [he]; exact h
      · have := ih (i.Name :: seen) j hj
        exact fun hs => this (List.mem_cons_of_mem _ hs)

theorem filterFrontendsAux_names_nodup (seen : List String)
    (l : List EcsInstance) :
    ((filterFrontendsAux seen l).map EcsInstance.Name).Nodup := by
  induction l generalizing seen with
  | nil => simp [filterFrontendsAux]
  | cons i rest ih =>
    rw [filterFrontendsAux]
    by_cases h : i.Name ∈ seen
    · rw [if_pos h]; exact ih seen
    · rw [if_neg h]
      simp only [List.map_cons, List.nodup_cons]
      refine ⟨?_, ih (i.Name :: seen)⟩
      intro hmem
      rcases List.mem_map.mp hmem with ⟨j, hj, hname⟩
      have hns := filterFrontendsAux_name_not_seen (i.Name :: seen) rest j hj
      apply hns
      rw [hname]
      exact List.mem_cons_self _ _

theorem filterFrontendsAux_find? (seen : List String) (l : List EcsInstance)
    (n : String) (hn : n ∉ seen) :
    (filterFrontendsAux seen l).find? (fun j => j.Name == n) =
      l.find? (fun j => j.Name == n) := by
  induction l generalizing seen with
  | nil => rfl
  | cons i rest ih =>
    rw [filterFrontendsAux]
    by_cases he : i.Name = n
    · have h : i.Name ∉ seen := by rw [he]; exact hn
      rw [if_neg h]
      simp only [List.find?_cons]
      simp [he]
    · have hbeq : (i.Name == n) = false := by simp [he]
      by_cases h : i.Name ∈ seen
      · rw [if_pos h]
        simp only [List.find?_cons, hbeq]
        exact ih seen hn
      · rw [if_neg h]
        simp only [List.find?_cons, hbeq]
        refine ih (i.Name :: seen) ?_
        intro hmem
        rcases List.mem_cons.mp hmem with h1 | h2
        · exact he h1.symm
        · exact hn h2

theorem filterFrontendsAux_id (seen : List String) (m : List EcsInstance)
    (hdisj : ∀ j ∈ m, j.Name ∉ seen)
    (hnodup : (m.map EcsInstance.Name).Nodup) :
    filterFrontendsAux seen m = m := by
  induction m generalizing seen with
  | nil => rfl
  | cons i rest ih =>
    rw [filterFrontendsAux]
    have hi : i.Name ∉ seen := hdisj i (List.mem_cons_self _ _)
    rw [if_neg hi]
    simp only [List.map_cons, List.nodup_cons] at hnodup
    congr 1
    apply ih
    · intro j hj hmem
      rcases List.mem_cons.mp hmem with he | hseen
      · apply hnodup.1
        rw [← he]
        exact List.mem_map_of_mem _ hj
      · exact hdisj j (List.mem_cons_of_mem _ hj) hseen
    · exact hnodup.2

/-- C7: `filterFrontends` returns a sublist of its input (so relative order
is preserved), with pairwise-distinct names; for every name it keeps the
input's first occurrence (`find?` is unchanged); and it is idempotent. -/
theorem filterFrontends_first_occurrences (l : List EcsInstance) :
    List.Sublist (filterFrontends l) l ∧
    ((filterFrontends l).map EcsInstance.Name).Nodup ∧
    (∀ n : String, (filterFrontends l).find? (fun j => j.Name == n) =
      l.find? (fun j => j.Name == n)) ∧
    filterFrontends (filterFrontends l) = filterFrontends l :=
  ⟨filterFrontendsAux_sublist [] l,
   filterFrontendsAux_names_nodup [] l,
   fun n => filterFrontendsAux_find? [] l n (List.not_mem_nil n),
   filterFrontendsAux_id [] (filterFrontendsAux [] l)
     (fun j _ => List.not_mem_nil j.Name)
     (filterFrontendsAux_names_nodup [] l)⟩

/-- C8: `getPort` returns the explicit port label's value when it is
present and non-empty; otherwise it returns the decimal rendering of the
first port binding's host port; with neither a usable label nor a binding
it fails (`none`); and in the batch derivation each service's port entry is
computed independently of every other service in the batch. -/
theorem getPort_spec (i : EcsInstance) :
    (∀ v, lookupLabel i.DockerLabels TraefikPort = some (some v) → v ≠ "" →
      getPort i = some v) ∧
    (labelAbsentNilOrEmpty i TraefikPort →
      ∀ hp bs, i.NetworkBindings = some hp :: bs →
        getPort i = some (toString hp)) ∧
    (labelAbsentNilOrEmpty i TraefikPort → i.NetworkBindings = [] →
      getPort i = none) ∧
    (∀ pre post n, derivePortsBatch (pre ++ (n, i) :: post) =
      derivePortsBatch pre ++ (n, getPort i) :: derivePortsBatch post) := by
  refine ⟨?_, ?_, ?_, ?_⟩
  · intro v hv hne
    have hlen : v.length ≠ 0 := fun h0 => hne ((length_eq_zero_iff v).mp h0)
    simp [getPort, getStringValue, hv, hlen, Nat.pos_of_ne_zero hlen]
  · intro h hp bs hb
    have hval : getStringValue i TraefikPort "" = "" := by
      rcases h with h | h | h <;> simp [getStringValue, h]
    simp [getPort, hval, hb]
  · intro h hb
    have hval : getStringValue i TraefikPort "" = "" := by
      rcases h with h | h | h <;> simp [getStringValue, h]
    simp [getPort, hval, hb]
  · intro pre post n
    simp [derivePortsBatch]

/-- A concrete instance with an explicit, non-empty port label. -/
def wInstPortLabel : EcsInstance :=
  { Name := "web", DockerLabels := [(TraefikPort, some "8080")],
    PrivateIpAddress := some "10.0.0.5", NetworkBindings := [some 32768] }

/-- A concrete instance with no port label and no port binding. -/
def wInstNoPort : EcsInstance :=
  { Name := "web", DockerLabels := [], PrivateIpAddress := none,
    NetworkBindings := [] }

/-- C8 witness: the explicit label wins over the binding, and the instance
with neither fails. -/
theorem getPort_spec_witness :
    getPort wInstPortLabel = some "8080" ∧ getPort wInstNoPort = none :=
  ⟨(getPort_spec wInstPortLabel).1 "8080" rfl (by decide),
   (getPort_spec wInstNoPort).2.2.1 (Or.inl rfl) rfl⟩

end Ecs
